import Mathlib

/-!
Verification development for the mock SFTP server (src/mock-sftp/server.ts).

The embedding models:
- `normalizePath` (the path sandbox), over JavaScript-style strings
  represented as `List Char`, with Node's `path.resolve` modelled by
  segment normalization (`pathResolve`);
- the per-session SFTP command dispatcher (`step`): OPEN, OPENDIR, READ,
  READDIR, CLOSE over a session state of open-file and open-directory
  tables plus the handle counter, against an explicit filesystem model `FS`;
- the authentication handler (`authenticate`);
- the server lifecycle manager (`ensureStarted` over `Lifecycle` state);
- `ensureHostKey` (the key store), with filesystem outcomes made explicit
  in `KeyFS`.
-/

/-- JavaScript strings are modelled as lists of characters. -/
abbrev JsStr := List Char

/-- File paths, as JavaScript strings. -/
abbrev FilePath := JsStr

/-- File contents: a list of byte values. -/
abbrev Bytes := List Nat

/-! ## Path model: Node's path.resolve over an absolute base -/

/-- Split a character list into segments at each slash character
(auxiliary accumulator form). -/
def splitSlashAux : List Char → List Char → List (List Char)
  | [], cur => [cur.reverse]
  | c :: rest, cur =>
    if c = '/' then cur.reverse :: splitSlashAux rest []
    else splitSlashAux rest (c :: cur)

/-- Split a path string into slash-separated segments. -/
def splitSlash (s : JsStr) : List (List Char) :=
  splitSlashAux s []

/-- Normalize a segment list the way Node's path resolution does for an
absolute path: drop empty and dot segments, and let a dot-dot segment pop
the previous segment (clamped at the root). -/
def normSegs (segs : List (List Char)) : List (List Char) :=
  segs.foldl
    (fun acc seg =>
      if seg = [] ∨ seg = ['.'] then acc
      else if seg = ['.', '.'] then acc.dropLast
      else acc ++ [seg]) []

/-- Render a normalized segment list as an absolute path string. -/
def renderAbs (segs : List (List Char)) : JsStr :=
  '/' :: List.intercalate ['/'] segs

/-- Model of Node's `path.resolve(root, rel)` for an absolute `root`:
join with a slash and normalize. -/
def pathResolve (root rel : JsStr) : JsStr :=
  renderAbs (normSegs (splitSlash (root ++ '/' :: rel)))

/-! ## normalizePath from src/mock-sftp/server.ts -/

/-- The request-cleaning prefix of `normalizePath`: empty or dot input
becomes the root path, and a leading slash is added when absent. -/
def cleanReq (requestPath : JsStr) : JsStr :=
  let c := if requestPath = [] ∨ requestPath = ['.'] then ['/'] else requestPath
  if List.isPrefixOf ['/'] c then c else '/' :: c

/-- The candidate produced by `path.resolve(rootDir, "." + cleanPath)` in
`normalizePath` before the sandbox check. -/
def resolveCandidate (requestPath rootDir : JsStr) : JsStr :=
  pathResolve rootDir ('.' :: cleanReq requestPath)

/-- Embedding of `normalizePath` (server.ts lines 47-58): clean the request,
resolve it against the root, and require the result to start with the root
string; otherwise throw the path-escape error, modelled as `.error ()`. -/
def normalizePath (requestPath rootDir : JsStr) : Except Unit JsStr :=
  let resolved := resolveCandidate requestPath rootDir
  if List.isPrefixOf rootDir resolved then .ok resolved else .error ()

/-- A path lies within the root directory when it is the root itself or a
proper descendant (the root followed by a slash). This is the spec's
"lies within the root directory", not the code's string-prefix check. -/
def liesWithin (rootDir p : JsStr) : Bool :=
  p == rootDir || List.isPrefixOf (rootDir ++ ['/']) p

/-! ## Filesystem model and session state -/

/-- The filesystem as seen by the server at one instant: regular files with
their contents, and directories with their entry-name lists. -/
structure FS where
  files : List (FilePath × Bytes)
  dirs : List (FilePath × List JsStr)
deriving DecidableEq

/-- A stat call on `p` succeeds when `p` is a file or a directory. -/
def FS.statOk (fs : FS) (p : FilePath) : Bool :=
  (fs.files.lookup p).isSome || (fs.dirs.lookup p).isSome

/-- Model of `path.join(dirPath, entry)` for a normalized directory path
and a plain entry name. -/
def joinPath (dirPath : FilePath) (entry : JsStr) : FilePath :=
  dirPath ++ '/' :: entry

/-- SFTP status codes used by the server (`STATUS_CODE`). -/
inductive Status where
  | ok
  | eof
  | failure
  | permissionDenied
deriving DecidableEq

/-- A reply frame sent for one request: a handle, one name entry, a data
chunk, or a status. -/
inductive Reply where
  | handle (h : Nat)
  | name (filename : JsStr)
  | fileData (bytes : Bytes)
  | status (s : Status)
deriving DecidableEq

/-- State stored per open directory handle: the entry list captured at
open time, the cursor index, and the resolved directory path. -/
structure DirInfo where
  files : List JsStr
  index : Nat
  dirPath : FilePath
deriving DecidableEq

/-- Per-session dispatcher state: the `openFiles` map (handle id to the
resolved path behind the descriptor), the `openDirs` map, and the handle
counter. -/
structure SessionState where
  openFiles : List (Nat × FilePath)
  openDirs : List (Nat × DirInfo)
  handleCount : Nat
deriving DecidableEq

/-- The fresh session state created when an SFTP channel opens. -/
def initSession : SessionState :=
  { openFiles := [], openDirs := [], handleCount := 0 }

/-- `Buffer.writeUInt32BE` rejects values at or above 2^32, so handle
creation fails (throws) once the counter leaves the 4-byte range. -/
def HANDLE_LIMIT : Nat := 2 ^ 32

/-- Remove a key from an association list (model of `Map.delete`). -/
def eraseKey (l : List (Nat × α)) (k : Nat) : List (Nat × α) :=
  l.filter (fun kv => !(kv.1 == k))

/-- Replace the value stored at a key (model of in-place mutation of the
object returned by `Map.get`). -/
def setKey (l : List (Nat × α)) (k : Nat) (v : α) : List (Nat × α) :=
  l.map (fun kv => if kv.1 == k then (k, v) else kv)

/-- One `fs.read` interpreted as in the READ handler: the bytes read are
`content[offset .. offset+len)`; zero bytes read means the EOF status,
otherwise a data frame (server.ts lines 203-222). -/
def readChunk (content : Bytes) (offset len : Nat) : Reply :=
  let chunk := (content.drop offset).take len
  if chunk.isEmpty then .status .eof else .fileData chunk

/-- OPEN_MODE.READ, the read bit of the SFTP open flags. -/
def OPEN_MODE_READ : Nat := 1

/-- The OPEN handler (server.ts lines 187-201): refuse without the read
flag, resolve the path inside the sandbox, open the file read-only, and
issue a fresh handle. -/
def doOpen (rootDir : FilePath) (fs : FS) (st : SessionState)
    (filename : FilePath) (flags : Nat) : Reply × SessionState :=
  if flags &&& OPEN_MODE_READ = 0 then (.status .permissionDenied, st)
  else
    match normalizePath filename rootDir with
    | .error _ => (.status .failure, st)
    | .ok resolved =>
      match fs.files.lookup resolved with
      | none => (.status .failure, st)
      | some _ =>
        if st.handleCount < HANDLE_LIMIT then
          (.handle st.handleCount,
            { st with
              openFiles := (st.handleCount, resolved) :: st.openFiles,
              handleCount := st.handleCount + 1 })
        else (.status .failure, st)

/-- The OPENDIR handler (server.ts lines 146-156): resolve the path, list
the directory eagerly, and store the snapshot with cursor zero under a
fresh handle. -/
def doOpenDir (rootDir : FilePath) (fs : FS) (st : SessionState)
    (pathname : FilePath) : Reply × SessionState :=
  match normalizePath pathname rootDir with
  | .error _ => (.status .failure, st)
  | .ok resolved =>
    match fs.dirs.lookup resolved with
    | none => (.status .failure, st)
    | some entries =>
      if st.handleCount < HANDLE_LIMIT then
        (.handle st.handleCount,
          { st with
            openDirs := (st.handleCount, ⟨entries, 0, resolved⟩) :: st.openDirs,
            handleCount := st.handleCount + 1 })
      else (.status .failure, st)

/-- The READ handler (server.ts lines 203-222): unknown handles fail,
otherwise the reply is `readChunk` of the file's current content. -/
def doRead (fs : FS) (st : SessionState) (h : Nat) (offset len : Nat) :
    Reply × SessionState :=
  match st.openFiles.lookup h with
  | none => (.status .failure, st)
  | some p =>
    match fs.files.lookup p with
    | none => (.status .failure, st)
    | some content => (readChunk content offset len, st)

/-- The READDIR handler (server.ts lines 158-185): unknown handles fail; an
exhausted snapshot yields EOF; otherwise the cursor advances and the entry
at the old cursor is stat-ed — a stat failure yields a failure status. -/
def doReadDir (fs : FS) (st : SessionState) (h : Nat) : Reply × SessionState :=
  match st.openDirs.lookup h with
  | none => (.status .failure, st)
  | some dirInfo =>
    if dirInfo.files.length ≤ dirInfo.index then (.status .eof, st)
    else
      let entry := dirInfo.files.getD dirInfo.index []
      let st' := { st with
        openDirs := setKey st.openDirs h { dirInfo with index := dirInfo.index + 1 } }
      if fs.statOk (joinPath dirInfo.dirPath entry) then (.name entry, st')
      else (.status .failure, st')

/-- The CLOSE handler (server.ts lines 224-244): a known file handle is
removed from the table first and then the descriptor is closed, the reply
reflecting the OS close outcome `osCloseOk`; a known directory handle is
removed with an OK reply; anything else fails. -/
def doClose (st : SessionState) (h : Nat) (osCloseOk : Bool) :
    Reply × SessionState :=
  if (st.openFiles.lookup h).isSome then
    let st' := { st with openFiles := eraseKey st.openFiles h }
    (if osCloseOk then (.status .ok, st') else (.status .failure, st'))
  else if (st.openDirs.lookup h).isSome then
    (.status .ok, { st with openDirs := eraseKey st.openDirs h })
  else (.status .failure, st)

/-- The commands the dispatcher handles; `close` carries the OS close
outcome for the wrapped descriptor. -/
inductive Cmd where
  | openFile (p : FilePath) (flags : Nat)
  | openDir (p : FilePath)
  | readFile (h : Nat) (offset len : Nat)
  | readDir (h : Nat)
  | close (h : Nat) (osCloseOk : Bool)
deriving DecidableEq

/-- One dispatcher step: route a command to its handler. -/
def step (rootDir : FilePath) (fs : FS) (st : SessionState) :
    Cmd → Reply × SessionState
  | .openFile p flags => doOpen rootDir fs st p flags
  | .openDir p => doOpenDir rootDir fs st p
  | .readFile h offset len => doRead fs st h offset len
  | .readDir h => doReadDir fs st h
  | .close h c => doClose st h c

/-- Run a command trace; each command sees its own filesystem instant, so
the filesystem may change between steps. -/
def run (rootDir : FilePath) (st : SessionState) :
    List (FS × Cmd) → List Reply × SessionState
  | [] => ([], st)
  | (fs, c) :: rest =>
    let rs := step rootDir fs st c
    let rest' := run rootDir rs.2 rest
    (rs.1 :: rest'.1, rest'.2)

/-! ## Authentication handler (server.ts lines 90-96) -/

/-- An authentication attempt: the method, and for the password method the
supplied username and password. -/
inductive AuthMethod where
  | password (username pass : JsStr)
  | publickey
  | hostbased
  | keyboardInteractive
  | noneMethod
deriving DecidableEq

/-- Embedding of the authentication handler: accept exactly when the
method is password and both credentials equal the configured pair. -/
def authenticate (cfgUser cfgPass : JsStr) : AuthMethod → Bool
  | .password u p => u == cfgUser && p == cfgPass
  | _ => false

/-! ## Server lifecycle manager (server.ts lines 71-83, 262-281) -/

/-- The module-level lifecycle state: `serverInstance` and
`startingPromise` hold identifiers of the running server and of the
in-flight start attempt; `nextId` mints fresh identifiers; `binds` counts
bind (listen) attempts triggered so far. -/
structure Lifecycle where
  serverInstance : Option Nat
  startingPromise : Option Nat
  nextId : Nat
  binds : Nat
deriving DecidableEq

/-- The state before any start attempt. -/
def initLifecycle : Lifecycle :=
  { serverInstance := none, startingPromise := none, nextId := 0, binds := 0 }

/-- Embedding of the synchronous prefix of `startMockSftpServer`: return
the running instance if present, else the in-flight promise if present,
else mint a new promise, record it, and trigger exactly one bind attempt.
The returned `Nat` is the result the caller receives. -/
def ensureStarted (st : Lifecycle) : Nat × Lifecycle :=
  match st.serverInstance with
  | some s => (s, st)
  | none =>
    match st.startingPromise with
    | some p => (p, st)
    | none =>
      (st.nextId,
        { st with
          startingPromise := some st.nextId,
          nextId := st.nextId + 1,
          binds := st.binds + 1 })

/-- N back-to-back `ensureStarted` calls with no intervening completion:
the list of results each caller receives, and the final state. -/
def ensureStartedN : Nat → Lifecycle → List Nat × Lifecycle
  | 0, st => ([], st)
  | n + 1, st =>
    let r := ensureStarted st
    let rest := ensureStartedN n r.2
    (r.1 :: rest.1, rest.2)

/-! ## Key store: ensureHostKey (server.ts lines 30-45) -/

/-- The filesystem outcomes relevant to one `ensureHostKey` call: whether
`mkdir` succeeds, what (if anything) is on disk at the key path, whether
the read call succeeds, whether the write of a fresh key succeeds, and the
key material a fresh generation would produce. -/
structure KeyFS where
  mkdirOk : Bool
  keyOnDisk : Option Bytes
  readOk : Bool
  writeOk : Bool
  generatedKey : Bytes
deriving DecidableEq

/-- The result of `fsp.readFile(keyPath)`: the on-disk key when present
and readable, otherwise a thrown error (`none`). -/
def readKey (kfs : KeyFS) : Option Bytes :=
  match kfs.keyOnDisk, kfs.readOk with
  | some k, true => some k
  | _, _ => none

/-- Embedding of `ensureHostKey`: create the parent directory (failure
propagates), try to read the key, and on ANY read failure fall into the
catch branch, which generates a fresh key and persists it (write failure
propagates). An error here rejects the start promise for all waiters. -/
def ensureHostKey (kfs : KeyFS) : Except Unit Bytes :=
  if !kfs.mkdirOk then .error ()
  else
    match readKey kfs with
    | some k => .ok k
    | none => if kfs.writeOk then .ok kfs.generatedKey else .error ()

/-! ## Derived runs and invariants -/

/-- OPEN_MODE.WRITE, the write bit of the SFTP open flags. -/
def OPEN_MODE_WRITE : Nat := 2

/-- The fetcher's chunked-read loop: repeated READ replies at offsets
0, L, 2L, ... concatenated, stopping at the first non-data reply. The
fuel argument bounds the number of iterations. -/
def readLoop (content : Bytes) (L : Nat) : Nat → Nat → Bytes
  | 0, _ => []
  | fuel + 1, offset =>
    match readChunk content offset L with
    | .fileData chunk => chunk ++ readLoop content L fuel (offset + L)
    | _ => []

/-- Repeated READDIR on one handle against a fixed filesystem: the list of
replies and the final state. -/
def readDirN (fs : FS) (st : SessionState) (h : Nat) : Nat → List Reply × SessionState
  | 0 => ([], st)
  | n + 1 =>
    let r := doReadDir fs st h
    let rest := readDirN fs r.2 h n
    (r.1 :: rest.1, rest.2)

/-- The handle identifiers issued in a reply trace, in order. -/
def issuedHandles (rs : List Reply) : List Nat :=
  rs.filterMap (fun r =>
    match r with
    | .handle h => some h
    | _ => none)

/-- All the handle keys currently registered in a session, files first. -/
def sessionKeys (st : SessionState) : List Nat :=
  st.openFiles.map Prod.fst ++ st.openDirs.map Prod.fst

/-- The session invariant used for handle-table claims: no handle key is
registered twice (in particular a key is never simultaneously a file
handle and a directory handle). -/
def SessionInv (st : SessionState) : Prop :=
  (sessionKeys st).Nodup

/-- Every registered handle key is below the session counter; together
with `SessionInv` this is preserved by every dispatcher step. -/
def KeysBound (st : SessionState) : Prop :=
  ∀ k ∈ sessionKeys st, k < st.handleCount

/-! ## Concrete fixtures for witnesses and counterexamples -/

/-- A 37-byte file content, as in the spec's chunked-read scenario. -/
def content37 : Bytes := List.range 37

/-- A filesystem holding `/data/loans.csv` with 37 bytes. -/
def fsLoans : FS :=
  { files := [("/data/loans.csv".toList, content37)], dirs := [("/data".toList, ["loans.csv".toList])] }

/-- A session in which handle 0 is an open file handle for the loans file. -/
def stLoans : SessionState :=
  { openFiles := [(0, "/data/loans.csv".toList)], openDirs := [], handleCount := 1 }

/-- A session in which handle 0 is a directory handle whose snapshot
captured the single entry `a`. -/
def stSnap : SessionState :=
  { openFiles := [],
    openDirs := [(0, { files := ["a".toList], index := 0, dirPath := "/data/d".toList })],
    handleCount := 1 }

/-- The directory `/data/d` after the entry `a` was removed: the directory
still stats, the entry does not. -/
def fsRemoved : FS :=
  { files := [], dirs := [("/data/d".toList, [])] }

/-- A key-store filesystem where a key is persisted on disk but the read
call fails, and writing succeeds. -/
def kfsReadFails : KeyFS :=
  { mkdirOk := true, keyOnDisk := some [1], readOk := false, writeOk := true,
    generatedKey := [2] }

/-- A key-store filesystem where the parent-directory creation fails. -/
def kfsMkdirFails : KeyFS :=
  { mkdirOk := false, keyOnDisk := none, readOk := true, writeOk := true,
    generatedKey := [7] }

/-! ## Sanity examples for the path model -/

example : pathResolve "/data".toList "./loans.csv".toList = "/data/loans.csv".toList := by decide

example : pathResolve "/data".toList "./../etc/passwd".toList = "/etc/passwd".toList := by decide

example : normalizePath "/../etc/passwd".toList "/data".toList = .error () := by rfl

example : normalizePath "loans.csv".toList "/data".toList = .ok "/data/loans.csv".toList := by rfl

example : normalizePath "../data-evil".toList "/data".toList = .ok "/data-evil".toList := by rfl

/-! ## Association-list helper lemmas -/

theorem lookup_eraseKey_self (l : List (Nat × α)) (k : Nat) :
    (eraseKey l k).lookup k = none := by
  induction l with
  | nil => rfl
  | cons kv rest ih =>
    obtain ⟨a, b⟩ := kv
    by_cases h : a = k
    · simpa [eraseKey, List.filter_cons, h] using ih
    · have hak : ((a, b).1 == k) = false := by simpa using h
      have hka : (k == a) = false := by
        simp only [beq_eq_false_iff_ne, ne_eq]
        exact fun hk => h hk.symm
      simp only [eraseKey, List.filter_cons, hak, Bool.not_false, if_true,
        List.lookup_cons, hka] at ih ⊢
      exact ih

theorem mem_keys_of_lookup_isSome {l : List (Nat × α)} {k : Nat}
    (h : (l.lookup k).isSome = true) : k ∈ l.map Prod.fst := by
  induction l with
  | nil => simp [List.lookup] at h
  | cons kv rest ih =>
    obtain ⟨a, b⟩ := kv
    by_cases hk : k = a
    · simp [hk]
    · have hka : (k == a) = false := by
        simp only [beq_eq_false_iff_ne, ne_eq]
        exact hk
      simp only [List.lookup_cons, hka] at h
      simp [ih h]

theorem lookup_eq_none_of_not_mem {l : List (Nat × α)} {k : Nat}
    (h : k ∉ l.map Prod.fst) : l.lookup k = none := by
  induction l with
  | nil => rfl
  | cons kv rest ih =>
    obtain ⟨a, b⟩ := kv
    simp only [List.map_cons, List.mem_cons, not_or] at h
    have hka : (k == a) = false := by
      simp only [beq_eq_false_iff_ne, ne_eq]
      exact h.1
    simp only [List.lookup_cons, hka]
    exact ih h.2

theorem setKey_cons (a : Nat) (b : α) (rest : List (Nat × α)) (k : Nat) (v : α) :
    setKey ((a, b) :: rest) k v
      = (if (a == k) = true then (k, v) else (a, b)) :: setKey rest k v := rfl

theorem lookup_setKey_self {l : List (Nat × α)} {k : Nat} {w : α}
    (h : l.lookup k = some w) (v : α) : (setKey l k v).lookup k = some v := by
  induction l with
  | nil => simp [List.lookup] at h
  | cons kv rest ih =>
    obtain ⟨a, b⟩ := kv
    cases hak : (a == k) with
    | true =>
      simp only [setKey_cons, hak, if_true]
      simp [List.lookup_cons]
    | false =>
      have hka : (k == a) = false := by
        simp only [beq_eq_false_iff_ne, ne_eq] at hak ⊢
        exact fun hk => hak hk.symm
      simp only [List.lookup_cons, hka] at h
      simp [setKey_cons, hak, List.lookup_cons, hka]
      exact ih h

theorem keys_setKey (l : List (Nat × α)) (k : Nat) (v : α) :
    (setKey l k v).map Prod.fst = l.map Prod.fst := by
  induction l with
  | nil => rfl
  | cons kv rest ih =>
    obtain ⟨a, b⟩ := kv
    cases hak : (a == k) with
    | true =>
      have : a = k := by simpa using hak
      simp [setKey_cons, hak, ih, this]
    | false =>
      simp [setKey_cons, hak, ih]

theorem keys_eraseKey (l : List (Nat × α)) (k : Nat) :
    (eraseKey l k).map Prod.fst = (l.map Prod.fst).filter (fun a => !(a == k)) := by
  induction l with
  | nil => rfl
  | cons kv rest ih =>
    obtain ⟨a, b⟩ := kv
    by_cases hk : a = k
    · simp only [eraseKey, List.filter_cons] at ih ⊢
      simp [hk] at ih ⊢
      exact ih
    · have hak : (a == k) = false := by
        simp only [beq_eq_false_iff_ne, ne_eq]
        exact hk
      simp only [eraseKey, List.filter_cons] at ih ⊢
      simp [hak] at ih ⊢
      simp [ih]

/-! ## C6: authentication -/

/-- C6: an authentication attempt is accepted if and only if it uses the
password method and both the supplied username and password equal the
configured pair exactly; every other method or mismatched credential is
rejected. -/
theorem c6_auth_exact_match (cfgUser cfgPass : JsStr) (m : AuthMethod) :
    authenticate cfgUser cfgPass m = true ↔ m = .password cfgUser cfgPass := by
  cases m with
  | password u p => simp [authenticate]
  | publickey => simp [authenticate]
  | hostbased => simp [authenticate]
  | keyboardInteractive => simp [authenticate]
  | noneMethod => simp [authenticate]

/-! ## C3: OPEN access-flag check -/

/-- C3 counterexample: an OpenFile request with flags READ|WRITE requests
write access, yet the dispatcher grants a fresh read-only handle instead
of replying permission-denied. -/
theorem c3_counterexample :
    ((3 &&& OPEN_MODE_WRITE ≠ 0) ∧ (3 &&& OPEN_MODE_READ ≠ 0)) ∧
    step "/data".toList fsLoans initSession (.openFile "loans.csv".toList 3)
      = (.handle 0,
          { openFiles := [(0, "/data/loans.csv".toList)], openDirs := [],
            handleCount := 1 }) := by
  exact ⟨by decide, by rfl⟩

/-- C3 (amended): an OpenFile request whose flags do not include read
access is answered with permission-denied and creates no handle; a
request that includes write access alongside read access is not refused. -/
theorem c3_no_read_denied (rootDir : FilePath) (fs : FS) (st : SessionState)
    (p : FilePath) (flags : Nat) (h : flags &&& OPEN_MODE_READ = 0) :
    step rootDir fs st (.openFile p flags) = (.status .permissionDenied, st) := by
  simp [step, doOpen, h]

/-- C3 witness: flags requesting only write access are refused on a
concrete session. -/
theorem c3_witness :
    (2 &&& OPEN_MODE_READ = 0) ∧
    step "/data".toList fsLoans initSession (.openFile "loans.csv".toList 2)
      = (.status .permissionDenied, initSession) :=
  ⟨by decide, c3_no_read_denied _ _ _ _ _ (by decide)⟩

/-! ## C1: path sandbox -/

/-- C1 counterexample: the request `../data-evil` against root `/data`
resolves successfully to `/data-evil`, which passes the string-prefix
check but does not lie within the root directory. -/
theorem c1_counterexample :
    normalizePath "../data-evil".toList "/data".toList = .ok "/data-evil".toList ∧
    liesWithin "/data".toList "/data-evil".toList = false :=
  ⟨by rfl, by decide⟩

/-- C1 (amended): whenever the canonicalized join of root and request does
not start with the root's form, `normalizePath` fails with the path-escape
error, and the dispatcher turns this into a failure reply with untouched
session state on every filesystem (no filesystem access); every
successfully resolved path starts with the root's canonical form as a
string prefix (though it need not lie within the root directory). -/
theorem c1_sandbox (requestPath rootDir : JsStr) :
    (List.isPrefixOf rootDir (resolveCandidate requestPath rootDir) = false →
      normalizePath requestPath rootDir = .error ()) ∧
    (∀ res, normalizePath requestPath rootDir = .ok res →
      List.isPrefixOf rootDir res = true) ∧
    (normalizePath requestPath rootDir = .error () →
      ∀ fs st, step rootDir fs st (.openDir requestPath) = (.status .failure, st)) := by
  refine ⟨?_, ?_, ?_⟩
  · intro h
    simp [normalizePath, h]
  · intro res hres
    by_cases h : List.isPrefixOf rootDir (resolveCandidate requestPath rootDir) = true
    · simp [normalizePath, h] at hres
      simpa [hres] using h
    · simp [normalizePath, h] at hres
  · intro herr fs st
    simp [step, doOpenDir, herr]

/-- C1 witness: the traversal request `..` escapes the sandbox and is
rejected. -/
theorem c1_witness :
    normalizePath "..".toList "/data".toList = .error () :=
  (c1_sandbox "..".toList "/data".toList).1 (by decide)

/-! ## C9: key store failures -/

/-- C9 counterexample: a key is persisted on disk but the read call fails;
`ensureHostKey` succeeds anyway with a freshly generated, different key,
so startup proceeds rather than failing. -/
theorem c9_counterexample :
    (kfsReadFails.keyOnDisk = some [1] ∧ kfsReadFails.readOk = false) ∧
    ensureHostKey kfsReadFails = .ok [2] ∧ ([2] : Bytes) ≠ [1] :=
  ⟨⟨rfl, rfl⟩, by rfl, by decide⟩

/-- C9 (amended): a filesystem failure while creating the key directory or
while persisting a freshly generated key is fatal to the start attempt
(the start promise is rejected for every waiter); a failure of the key
READ is not fatal — the catch branch generates and persists a fresh key,
so the server can start with a different key than the persisted one. -/
theorem c9_key_store_failures (kfs : KeyFS) :
    (kfs.mkdirOk = false → ensureHostKey kfs = .error ()) ∧
    (readKey kfs = none → kfs.writeOk = false → ensureHostKey kfs = .error ()) ∧
    (kfs.mkdirOk = true → readKey kfs = none → kfs.writeOk = true →
      ensureHostKey kfs = .ok kfs.generatedKey) := by
  refine ⟨?_, ?_, ?_⟩
  · intro h
    simp [ensureHostKey, h]
  · intro hr hw
    cases hm : kfs.mkdirOk with
    | false => simp [ensureHostKey, hm]
    | true => simp [ensureHostKey, hm, hr, hw]
  · intro hm hr hw
    simp [ensureHostKey, hm, hr, hw]

/-- C9 witness: with the directory creation failing, `ensureHostKey`
fails, and with read failing but write succeeding it returns the fresh
key. -/
theorem c9_witness :
    ensureHostKey kfsMkdirFails = .error () ∧
    ensureHostKey kfsReadFails = .ok kfsReadFails.generatedKey :=
  ⟨(c9_key_store_failures kfsMkdirFails).1 rfl,
   (c9_key_store_failures kfsReadFails).2.2 rfl rfl rfl⟩

/-! ## C7: idempotent server start -/

theorem ensureStartedN_running {st : Lifecycle} {s : Nat}
    (h : st.serverInstance = some s) (n : Nat) :
    ensureStartedN n st = (List.replicate n s, st) := by
  induction n with
  | zero => rfl
  | succ m ih =>
    simp [ensureStartedN, ensureStarted, h, ih, List.replicate_succ]

theorem ensureStartedN_inflight {st : Lifecycle} {p : Nat}
    (hs : st.serverInstance = none) (hp : st.startingPromise = some p) (n : Nat) :
    ensureStartedN n st = (List.replicate n p, st) := by
  induction n with
  | zero => rfl
  | succ m ih =>
    simp [ensureStartedN, ensureStarted, hs, hp, ih, List.replicate_succ]

/-- C7: at most one listener is ever bound. From an idle lifecycle state a
burst of n calls triggers exactly one bind attempt and every caller
receives the same result; while a start is in flight every caller receives
the in-flight promise and the state (in particular the bind counter) is
unchanged; once the server runs every caller receives the existing
instance with the state unchanged. -/
theorem c7_ensure_started (st : Lifecycle) (n : Nat) :
    (st.serverInstance = none → st.startingPromise = none → 0 < n →
      (ensureStartedN n st).1 = List.replicate n st.nextId ∧
      (ensureStartedN n st).2.binds = st.binds + 1) ∧
    (∀ p, st.serverInstance = none → st.startingPromise = some p →
      (ensureStartedN n st).1 = List.replicate n p ∧ (ensureStartedN n st).2 = st) ∧
    (∀ s, st.serverInstance = some s →
      (ensureStartedN n st).1 = List.replicate n s ∧ (ensureStartedN n st).2 = st) := by
  refine ⟨?_, ?_, ?_⟩
  · intro hs hp hn
    cases n with
    | zero => omega
    | succ m =>
      have h1 : (ensureStarted st).1 = st.nextId := by
        simp [ensureStarted, hs, hp]
      have h2 : (ensureStarted st).2.serverInstance = none := by
        simp [ensureStarted, hs, hp]
      have h3 : (ensureStarted st).2.startingPromise = some st.nextId := by
        simp [ensureStarted, hs, hp]
      have h4 : (ensureStarted st).2.binds = st.binds + 1 := by
        simp [ensureStarted, hs, hp]
      have hrest := ensureStartedN_inflight h2 h3 m
      simp [ensureStartedN, hrest, h1, h4, List.replicate_succ]
  · intro p hs hp
    simp [ensureStartedN_inflight hs hp n]
  · intro s hsome
    simp [ensureStartedN_running hsome n]

/-- C7 witness: three racing calls from the initial state all receive the
same result and exactly one bind attempt is made. -/
theorem c7_witness :
    (ensureStartedN 3 initLifecycle).1 = List.replicate 3 initLifecycle.nextId ∧
    (ensureStartedN 3 initLifecycle).2.binds = initLifecycle.binds + 1 :=
  (c7_ensure_started initLifecycle 3).1 rfl rfl (by decide)

/-! ## C2: chunked reads reassemble the file -/

theorem readLoop_drop (content : Bytes) (L : Nat) (hL : 0 < L) :
    ∀ fuel offset, content.length ≤ offset + fuel →
      readLoop content L fuel offset = content.drop offset := by
  intro fuel
  induction fuel with
  | zero =>
    intro offset hlen
    have : content.drop offset = [] :=
      List.drop_eq_nil_of_le (by omega)
    simp [readLoop, this]
  | succ m ih =>
    intro offset hlen
    by_cases hempty : ((content.drop offset).take L).isEmpty = true
    · have : content.drop offset = [] := by
        rcases List.take_eq_nil_iff.mp (List.isEmpty_iff.mp hempty) with h | h
        · omega
        · exact h
      simp [readLoop, readChunk, hempty, this]
    · have hrec : readLoop content L m (offset + L) = content.drop (offset + L) :=
      ih (offset + L) (by omega)
      have hdd : List.drop L (content.drop offset) = content.drop (offset + L) :=
        List.drop_drop L offset content
      calc readLoop content L (m + 1) offset
          = (content.drop offset).take L ++ readLoop content L m (offset + L) := by
            simp [readLoop, readChunk, hempty]
        _ = (content.drop offset).take L ++ List.drop L (content.drop offset) := by
            rw [hrec, hdd]
        _ = content.drop offset := List.take_append_drop L (content.drop offset)

/-- C2: through an open file handle, every READ replies with exactly the
chunk `content[offset .. offset+len)` (EOF when empty); hence reading at
offsets 0, L, 2L, ... with any chunk length L greater than 0 terminates at
the EOF signal and the concatenation of the returned chunks equals the
file content; and any read at an offset at or past the end of the file
yields the EOF signal, not an error. -/
theorem c2_chunked_read (fs : FS) (st : SessionState) (h : Nat) (p : FilePath)
    (content : Bytes) (L fuel : Nat)
    (hh : st.openFiles.lookup h = some p)
    (hc : fs.files.lookup p = some content)
    (hL : 0 < L) (hfuel : content.length ≤ fuel) :
    (∀ rootDir offset len,
      step rootDir fs st (.readFile h offset len) = (readChunk content offset len, st)) ∧
    readLoop content L fuel 0 = content ∧
    (∀ offset, content.length ≤ offset → readChunk content offset L = .status .eof) := by
  refine ⟨?_, ?_, ?_⟩
  · intro rootDir offset len
    simp [step, doRead, hh, hc]
  · have := readLoop_drop content L hL fuel 0 (by omega)
    simpa using this
  · intro offset hoff
    have : content.drop offset = [] := List.drop_eq_nil_of_le hoff
    simp [readChunk, this]

/-- C2 witness: the spec scenario — a 37-byte file read with chunk length
100 through handle 0 reassembles to the full content, and the follow-up
read at offset 37 yields EOF. -/
theorem c2_witness :
    readLoop content37 100 37 0 = content37 ∧
    readChunk content37 37 100 = .status .eof := by
  have T := c2_chunked_read fsLoans stLoans 0 "/data/loans.csv".toList content37
    100 37 (by rfl) (by rfl) (by decide) (by decide)
  exact ⟨T.2.1, T.2.2 37 (by decide)⟩

/-! ## C5: directory snapshot listing -/

theorem readDirN_snapshot (fs : FS) (h : Nat) (es : List JsStr) (d : FilePath)
    (hstat : ∀ e ∈ es, fs.statOk (joinPath d e) = true) :
    ∀ j st i, st.openDirs.lookup h = some ⟨es, i, d⟩ →
      (readDirN fs st h j).1
        = ((es.drop i).take j).map Reply.name
          ++ List.replicate (j - (es.length - i)) (.status .eof) := by
  intro j
  induction j with
  | zero =>
    intro st i hlk
    simp [readDirN]
  | succ m ih =>
    intro st i hlk
    by_cases hle : es.length ≤ i
    · have hstep : doReadDir fs st h = (.status .eof, st) := by
        simp [doReadDir, hlk, hle]
      have hdrop : es.drop i = [] := List.drop_eq_nil_of_le hle
      have h0 : es.length - i = 0 := by omega
      have hrec := ih st i hlk
      simp [readDirN, hstep, hrec, hdrop, h0, List.replicate_succ]
    · have hidx : i < es.length := by omega
      have hmem : es[i] ∈ es := List.getElem_mem hidx
      have hopt : es[i]? = some es[i] := List.getElem?_eq_getElem hidx
      have hst : fs.statOk (joinPath d es[i]) = true := hstat _ hmem
      have hstep : doReadDir fs st h
          = (.name es[i], { st with openDirs := setKey st.openDirs h ⟨es, i + 1, d⟩ }) := by
        simp [doReadDir, hlk, hle, List.getD, hopt, hst]
      have hlk' : (setKey st.openDirs h (⟨es, i + 1, d⟩ : DirInfo)).lookup h
          = some ⟨es, i + 1, d⟩ := lookup_setKey_self hlk _
      have hrec := ih { st with openDirs := setKey st.openDirs h ⟨es, i + 1, d⟩ } (i + 1) hlk'
      have hdropc : es.drop i = es[i] :: es.drop (i + 1) :=
        List.drop_eq_getElem_cons hidx
      have hcount : m + 1 - (es.length - i) = m - (es.length - (i + 1)) := by omega
      calc (readDirN fs st h (m + 1)).1
          = (doReadDir fs st h).1 :: (readDirN fs (doReadDir fs st h).2 h m).1 := by
            simp only [readDirN]
        _ = .name es[i] :: (readDirN fs { st with openDirs := setKey st.openDirs h ⟨es, i + 1, d⟩ } h m).1 := by
            rw [hstep]
        _ = .name es[i]
            :: (List.map Reply.name (List.take m (List.drop (i + 1) es))
                ++ List.replicate (m - (es.length - (i + 1))) (.status .eof)) := by
            rw [hrec]
        _ = List.map Reply.name (List.take (m + 1) (List.drop i es))
            ++ List.replicate (m + 1 - (es.length - i)) (.status .eof) := by
            rw [hdropc, List.take_succ_cons, List.map_cons, hcount]
            simp

/-- C5 counterexample: a directory handle captured the single entry `a`;
the entry is then removed from the filesystem. The next list call returns
a failure status — the removal is observed — and the captured entry is
never yielded, contradicting the claim that each captured entry is yielded
exactly once and that removals are unobservable. -/
theorem c5_counterexample :
    (stSnap.openDirs.lookup 0
      = some { files := ["a".toList], index := 0, dirPath := "/data/d".toList }) ∧
    (readDirN fsRemoved stSnap 0 2).1 = [.status .failure, .status .eof] ∧
    Reply.name "a".toList ∉ (readDirN fsRemoved stSnap 0 2).1 := by
  refine ⟨rfl, by rfl, ?_⟩
  have : (readDirN fsRemoved stSnap 0 2).1 = [.status .failure, .status .eof] := by rfl
  rw [this]
  decide

/-- C5 (amended): the entry list of a directory handle is captured once at
open time; as long as every captured entry still stats successfully,
repeated list calls yield each captured entry exactly once in the captured
order and then signal end-of-listing; a list reply carrying a name always
names a captured entry, so entries added to the directory after the open
are never observed through the handle (a captured entry removed after the
open instead produces a failure status and its cursor slot is consumed). -/
theorem c5_snapshot_listing (fs : FS) (st : SessionState) (h : Nat)
    (es : List JsStr) (d : FilePath)
    (hlk : st.openDirs.lookup h = some ⟨es, 0, d⟩) :
    ((∀ e ∈ es, fs.statOk (joinPath d e) = true) →
      ∀ k, (readDirN fs st h (es.length + k)).1
        = es.map Reply.name ++ List.replicate k (.status .eof)) ∧
    (∀ (fs2 : FS) (st2 : SessionState) (di : DirInfo) (e : JsStr),
      st2.openDirs.lookup h = some di →
      (doReadDir fs2 st2 h).1 = .name e → e ∈ di.files) := by
  constructor
  · intro hstat k
    have := readDirN_snapshot fs h es d hstat (es.length + k) st 0 hlk
    simpa [List.take_of_length_le (show es.length ≤ es.length + k by omega)] using this
  · intro fs2 st2 di e hlk2 hname
    by_cases hle : di.files.length ≤ di.index
    · simp [doReadDir, hlk2, hle] at hname
    · have hidx : di.index < di.files.length := by omega
      have hopt : di.files[di.index]? = some di.files[di.index] :=
        List.getElem?_eq_getElem hidx
      by_cases hst : fs2.statOk (joinPath di.dirPath di.files[di.index]) = true
      · have : (doReadDir fs2 st2 h).1 = .name di.files[di.index] := by
          simp [doReadDir, hlk2, hle, List.getD, hopt, hst]
        rw [this] at hname
        have : e = di.files[di.index] := by
          cases hname
          rfl
        rw [this]
        exact List.getElem_mem hidx
      · have hst' : fs2.statOk (joinPath di.dirPath di.files[di.index]) = false := by
          simpa using hst
        simp [doReadDir, hlk2, hle, List.getD, hopt, hst'] at hname

/-- C5 witness: a snapshot with one entry is listed as that entry followed
by the end-of-listing signal. -/
theorem c5_witness :
    (readDirN fsLoans
      { openFiles := [],
        openDirs := [(0, { files := ["loans.csv".toList], index := 0, dirPath := "/data".toList })],
        handleCount := 1 } 0 2).1
      = [Reply.name "loans.csv".toList] ++ List.replicate 1 (.status .eof) := by
  have T := c5_snapshot_listing fsLoans
    { openFiles := [],
      openDirs := [(0, { files := ["loans.csv".toList], index := 0, dirPath := "/data".toList })],
      handleCount := 1 } 0 ["loans.csv".toList] "/data".toList rfl
  have := T.1 (by decide) 1
  simpa using this

/-! ## C4 and C10: handle invalidation on close -/

theorem dirs_lookup_none_of_file (st : SessionState) (h : Nat)
    (hInv : SessionInv st) (hf : (st.openFiles.lookup h).isSome = true) :
    st.openDirs.lookup h = none := by
  have hmem : h ∈ st.openFiles.map Prod.fst := mem_keys_of_lookup_isSome hf
  have hdisj : (st.openFiles.map Prod.fst).Disjoint (st.openDirs.map Prod.fst) :=
    (List.nodup_append.mp hInv).2.2
  exact lookup_eq_none_of_not_mem (hdisj hmem)

theorem files_lookup_none_of_dir (st : SessionState) (h : Nat)
    (hInv : SessionInv st) (hd : (st.openDirs.lookup h).isSome = true) :
    st.openFiles.lookup h = none := by
  have hmem : h ∈ st.openDirs.map Prod.fst := mem_keys_of_lookup_isSome hd
  have hdisj : (st.openFiles.map Prod.fst).Disjoint (st.openDirs.map Prod.fst) :=
    (List.nodup_append.mp hInv).2.2
  exact lookup_eq_none_of_not_mem (fun hc => hdisj hc hmem)

theorem close_file_state (st : SessionState) (h : Nat) (b : Bool)
    (hf : (st.openFiles.lookup h).isSome = true) :
    (doClose st h b).2 = { st with openFiles := eraseKey st.openFiles h } := by
  cases b <;> simp [doClose, hf]

theorem close_dir_state (st : SessionState) (h : Nat) (b : Bool)
    (hf : st.openFiles.lookup h = none) (hd : (st.openDirs.lookup h).isSome = true) :
    (doClose st h b).2 = { st with openDirs := eraseKey st.openDirs h } := by
  simp [doClose, hf, hd]

/-- C4: in a session whose handle tables are well formed, once a close of
a handle succeeds, every subsequent operation referencing that handle — a
read, a directory listing, or a second close — is answered with the
explicit failure status for unknown handles rather than succeeding. -/
theorem c4_closed_handle_invalid (rootDir : FilePath) (fs : FS)
    (st : SessionState) (h : Nat) (b : Bool) (hInv : SessionInv st)
    (hok : (step rootDir fs st (.close h b)).1 = .status .ok) :
    ∀ (rootDir2 : FilePath) (fs2 : FS) (offset len : Nat) (b2 : Bool),
      (step rootDir2 fs2 (step rootDir fs st (.close h b)).2
        (.readFile h offset len)).1 = .status .failure ∧
      (step rootDir2 fs2 (step rootDir fs st (.close h b)).2
        (.readDir h)).1 = .status .failure ∧
      (step rootDir2 fs2 (step rootDir fs st (.close h b)).2
        (.close h b2)).1 = .status .failure := by
  intro rootDir2 fs2 offset len b2
  by_cases hf : (st.openFiles.lookup h).isSome = true
  · have h2 : (step rootDir fs st (.close h b)).2
        = { st with openFiles := eraseKey st.openFiles h } :=
      close_file_state st h b hf
    have hF : (eraseKey st.openFiles h).lookup h = none := lookup_eraseKey_self _ _
    have hD : st.openDirs.lookup h = none := dirs_lookup_none_of_file st h hInv hf
    refine ⟨?_, ?_, ?_⟩
    · rw [h2]
      simp [step, doRead, hF]
    · rw [h2]
      simp [step, doReadDir, hD]
    · rw [h2]
      simp [step, doClose, hF, hD]
  · have hfn : st.openFiles.lookup h = none := by
      cases ho : st.openFiles.lookup h with
      | none => rfl
      | some v => rw [ho] at hf; simp at hf
    by_cases hd : (st.openDirs.lookup h).isSome = true
    · have h2 : (step rootDir fs st (.close h b)).2
          = { st with openDirs := eraseKey st.openDirs h } :=
        close_dir_state st h b hfn hd
      have hD : (eraseKey st.openDirs h).lookup h = none := lookup_eraseKey_self _ _
      refine ⟨?_, ?_, ?_⟩
      · rw [h2]
        simp [step, doRead, hfn]
      · rw [h2]
        simp [step, doReadDir, hD]
      · rw [h2]
        simp [step, doClose, hfn, hD]
    · exfalso
      have hdn : st.openDirs.lookup h = none := by
        cases ho : st.openDirs.lookup h with
        | none => rfl
        | some v => rw [ho] at hd; simp at hd
      simp [step, doClose, hfn, hdn] at hok

/-- C4 witness: closing the open file handle 0 succeeds, after which read,
directory listing, and a second close on handle 0 all fail. -/
theorem c4_witness :
    (step "/data".toList fsLoans
      (step "/data".toList fsLoans stLoans (.close 0 true)).2
      (.readFile 0 0 5)).1 = .status .failure ∧
    (step "/data".toList fsLoans
      (step "/data".toList fsLoans stLoans (.close 0 true)).2
      (.readDir 0)).1 = .status .failure ∧
    (step "/data".toList fsLoans
      (step "/data".toList fsLoans stLoans (.close 0 true)).2
      (.close 0 true)).1 = .status .failure :=
  c4_closed_handle_invalid "/data".toList fsLoans stLoans 0 true
    (by unfold SessionInv; decide) (by rfl) "/data".toList fsLoans 0 5 true

/-- C10: a close of a known file handle removes the handle from the
session's table before the descriptor close is attempted: the reply
mirrors the OS close outcome, yet in both outcomes the handle is gone and
a repeated close fails as an unknown handle. -/
theorem c10_close_removes_first (rootDir : FilePath) (fs : FS)
    (st : SessionState) (h : Nat) (b : Bool) (hInv : SessionInv st)
    (hf : (st.openFiles.lookup h).isSome = true) :
    (step rootDir fs st (.close h b)).1
      = .status (if b then .ok else .failure) ∧
    ((step rootDir fs st (.close h b)).2).openFiles.lookup h = none ∧
    (∀ (rootDir2 : FilePath) (fs2 : FS) (b2 : Bool),
      (step rootDir2 fs2 (step rootDir fs st (.close h b)).2
        (.close h b2)).1 = .status .failure) := by
  have h2 : (step rootDir fs st (.close h b)).2
      = { st with openFiles := eraseKey st.openFiles h } :=
    close_file_state st h b hf
  have hF : (eraseKey st.openFiles h).lookup h = none := lookup_eraseKey_self _ _
  have hD : st.openDirs.lookup h = none := dirs_lookup_none_of_file st h hInv hf
  refine ⟨?_, ?_, ?_⟩
  · cases b <;> simp [step, doClose, hf]
  · rw [h2]
    simpa using hF
  · intro rootDir2 fs2 b2
    rw [h2]
    simp [step, doClose, hF, hD]

/-- C10 witness: even when the OS close of the descriptor fails (reply is
a failure status), handle 0 is removed from the table and a repeated close
fails as unknown. -/
theorem c10_witness :
    (step "/data".toList fsLoans stLoans (.close 0 false)).1
      = .status (if false then .ok else .failure) ∧
    ((step "/data".toList fsLoans stLoans (.close 0 false)).2).openFiles.lookup 0 = none ∧
    (step "/data".toList fsLoans (step "/data".toList fsLoans stLoans (.close 0 false)).2
      (.close 0 true)).1 = .status .failure := by
  have T := c10_close_removes_first "/data".toList fsLoans stLoans 0 false
    (by unfold SessionInv; decide) (by rfl)
  exact ⟨T.1, T.2.1, T.2.2 "/data".toList fsLoans true⟩

/-! ## C8: strictly increasing handle identifiers -/

theorem step_handle_spec (rootDir : FilePath) (fs : FS) (st : SessionState)
    (c : Cmd) :
    ((∀ h, (step rootDir fs st c).1 ≠ .handle h) ∧
      (step rootDir fs st c).2.handleCount = st.handleCount) ∨
    ((step rootDir fs st c).1 = .handle st.handleCount ∧
      st.handleCount < HANDLE_LIMIT ∧
      (step rootDir fs st c).2.handleCount = st.handleCount + 1) := by
  cases c with
  | openFile p flags =>
    by_cases hfl : flags &&& OPEN_MODE_READ = 0
    · left
      simp [step, doOpen, hfl]
    · cases hnp : normalizePath p rootDir with
      | error e =>
        left
        simp [step, doOpen, hfl, hnp]
      | ok resolved =>
        cases hlk : fs.files.lookup resolved with
        | none =>
          left
          simp [step, doOpen, hfl, hnp, hlk]
        | some content =>
          by_cases hcnt : st.handleCount < HANDLE_LIMIT
          · right
            simp [step, doOpen, hfl, hnp, hlk, hcnt]
          · left
            simp [step, doOpen, hfl, hnp, hlk, hcnt]
  | openDir p =>
    cases hnp : normalizePath p rootDir with
    | error e =>
      left
      simp [step, doOpenDir, hnp]
    | ok resolved =>
      cases hlk : fs.dirs.lookup resolved with
      | none =>
        left
        simp [step, doOpenDir, hnp, hlk]
      | some entries =>
        by_cases hcnt : st.handleCount < HANDLE_LIMIT
        · right
          simp [step, doOpenDir, hnp, hlk, hcnt]
        · left
          simp [step, doOpenDir, hnp, hlk, hcnt]
  | readFile h offset len =>
    left
    cases hlk : st.openFiles.lookup h with
    | none => simp [step, doRead, hlk]
    | some p =>
      cases hc : fs.files.lookup p with
      | none => simp [step, doRead, hlk, hc]
      | some content =>
        simp [step, doRead, hlk, hc, readChunk]
        intro h2
        split <;> simp
  | readDir h =>
    left
    cases hlk : st.openDirs.lookup h with
    | none => simp [step, doReadDir, hlk]
    | some di =>
      by_cases hle : di.files.length ≤ di.index
      · simp [step, doReadDir, hlk, hle]
      · by_cases hst : fs.statOk (joinPath di.dirPath (di.files.getD di.index [])) = true
        · simp [step, doReadDir, hlk, hle, List.getD] at hst ⊢
          simp [hst]
        · simp [step, doReadDir, hlk, hle, List.getD] at hst ⊢
          simp [hst]
  | close h b =>
    left
    by_cases hf : (st.openFiles.lookup h).isSome = true
    · cases b <;> simp [step, doClose, hf]
    · by_cases hd : (st.openDirs.lookup h).isSome = true
      · simp [step, doClose, hf, hd]
      · simp [step, doClose, hf, hd]

theorem run_issued_bounded (rootDir : FilePath) :
    ∀ (trace : List (FS × Cmd)) (st : SessionState),
      (issuedHandles (run rootDir st trace).1).Pairwise (· < ·) ∧
      ∀ h ∈ issuedHandles (run rootDir st trace).1,
        st.handleCount ≤ h ∧ h < HANDLE_LIMIT := by
  intro trace
  induction trace with
  | nil =>
    intro st
    simp [run, issuedHandles]
  | cons fc rest ih =>
    intro st
    obtain ⟨fs, c⟩ := fc
    have hrec := ih (step rootDir fs st c).2
    rcases step_handle_spec rootDir fs st c with ⟨hno, hcnt⟩ | ⟨hh, hlim, hcnt⟩
    · have hiss : issuedHandles ((run rootDir st ((fs, c) :: rest)).1)
          = issuedHandles ((run rootDir (step rootDir fs st c).2 rest).1) := by
        simp only [run, issuedHandles, List.filterMap_cons]
      rw [hiss]
      refine ⟨hrec.1, ?_⟩
      intro h hmem
      have := hrec.2 h hmem
      omega
    · have hiss : issuedHandles ((run rootDir st ((fs, c) :: rest)).1)
          = st.handleCount :: issuedHandles ((run rootDir (step rootDir fs st c).2 rest).1) := by
        simp only [run, issuedHandles, List.filterMap_cons, hh]
      rw [hiss]
      constructor
      · refine List.Pairwise.cons ?_ hrec.1
        intro h' hmem
        have := hrec.2 h' hmem
        omega
      · intro h hmem
        rcases List.mem_cons.mp hmem with hh0 | htail
        · omega
        · have := hrec.2 h htail
          omega

/-- C8: along every command trace of a fresh session, the issued handle
identifiers are pairwise strictly increasing — each newly issued handle is
strictly greater than every identifier issued before it, so no identifier
is ever reused, including after a close — and every identifier fits in a
4-byte unsigned integer. -/
theorem c8_handles_increase (rootDir : FilePath) (trace : List (FS × Cmd)) :
    (issuedHandles (run rootDir initSession trace).1).Pairwise (· < ·) ∧
    (issuedHandles (run rootDir initSession trace).1).all
      (fun h => decide (h < HANDLE_LIMIT)) = true := by
  have H := run_issued_bounded rootDir trace initSession
  refine ⟨H.1, ?_⟩
  rw [List.all_eq_true]
  intro h hmem
  simpa using (H.2 h hmem).2

/-! ## Reachable states satisfy the session invariant -/

theorem sessionKeys_openFile_push (st : SessionState) (resolved : FilePath) :
    sessionKeys
        { st with
            openFiles := (st.handleCount, resolved) :: st.openFiles,
            handleCount := st.handleCount + 1 }
      = st.handleCount :: sessionKeys st := by
  simp [sessionKeys]

theorem sessionKeys_openDir_push (st : SessionState) (entries : List JsStr)
    (resolved : FilePath) :
    sessionKeys
        { st with
            openDirs := (st.handleCount, (⟨entries, 0, resolved⟩ : DirInfo)) :: st.openDirs,
            handleCount := st.handleCount + 1 }
      = st.openFiles.map Prod.fst ++ st.handleCount :: st.openDirs.map Prod.fst := by
  simp [sessionKeys]

theorem inv_step (rootDir : FilePath) (fs : FS) (st : SessionState) (c : Cmd)
    (hInv : SessionInv st) (hB : KeysBound st) :
    SessionInv (step rootDir fs st c).2 ∧ KeysBound (step rootDir fs st c).2 := by
  cases c with
  | openFile p flags =>
    by_cases hfl : flags &&& OPEN_MODE_READ = 0
    · simpa [step, doOpen, hfl] using And.intro hInv hB
    · cases hnp : normalizePath p rootDir with
      | error e => simpa [step, doOpen, hfl, hnp] using And.intro hInv hB
      | ok resolved =>
        cases hlk : fs.files.lookup resolved with
        | none => simpa [step, doOpen, hfl, hnp, hlk] using And.intro hInv hB
        | some content =>
          by_cases hcnt : st.handleCount < HANDLE_LIMIT
          · have hfresh : st.handleCount ∉ sessionKeys st := fun hmem => by
              have := hB _ hmem
              omega
            constructor
            · show SessionInv (step rootDir fs st (.openFile p flags)).2
              simp [step, doOpen, hfl, hnp, hlk, hcnt, SessionInv]
              rw [sessionKeys_openFile_push st resolved]
              exact List.nodup_cons.mpr ⟨hfresh, hInv⟩
            · show KeysBound (step rootDir fs st (.openFile p flags)).2
              simp [step, doOpen, hfl, hnp, hlk, hcnt, KeysBound]
              rw [sessionKeys_openFile_push st resolved]
              intro k hk
              show k < st.handleCount + 1
              rcases List.mem_cons.mp hk with hk0 | hk'
              · omega
              · have := hB k hk'
                omega
          · simpa [step, doOpen, hfl, hnp, hlk, hcnt] using And.intro hInv hB
  | openDir p =>
    cases hnp : normalizePath p rootDir with
    | error e => simpa [step, doOpenDir, hnp] using And.intro hInv hB
    | ok resolved =>
      cases hlk : fs.dirs.lookup resolved with
      | none => simpa [step, doOpenDir, hnp, hlk] using And.intro hInv hB
      | some entries =>
        by_cases hcnt : st.handleCount < HANDLE_LIMIT
        · have hfresh : st.handleCount ∉ sessionKeys st := fun hmem => by
            have := hB _ hmem
            omega
          constructor
          · show SessionInv (step rootDir fs st (.openDir p)).2
            simp [step, doOpenDir, hnp, hlk, hcnt, SessionInv]
            rw [sessionKeys_openDir_push st entries resolved]
            rw [List.nodup_middle]
            refine List.nodup_cons.mpr ⟨?_, hInv⟩
            simpa [sessionKeys] using hfresh
          · show KeysBound (step rootDir fs st (.openDir p)).2
            simp [step, doOpenDir, hnp, hlk, hcnt, KeysBound]
            rw [sessionKeys_openDir_push st entries resolved]
            intro k hk
            show k < st.handleCount + 1
            rcases List.mem_append.mp hk with hkf | hkd
            · have := hB k (List.mem_append.mpr (Or.inl hkf))
              omega
            · rcases List.mem_cons.mp hkd with hk0 | hkd'
              · omega
              · have := hB k (List.mem_append.mpr (Or.inr hkd'))
                omega
        · simpa [step, doOpenDir, hnp, hlk, hcnt] using And.intro hInv hB
  | readFile h offset len =>
    cases hlk : st.openFiles.lookup h with
    | none => simpa [step, doRead, hlk] using And.intro hInv hB
    | some p =>
      cases hc : fs.files.lookup p with
      | none => simpa [step, doRead, hlk, hc] using And.intro hInv hB
      | some content => simpa [step, doRead, hlk, hc] using And.intro hInv hB
  | readDir h =>
    cases hlk : st.openDirs.lookup h with
    | none => simpa [step, doReadDir, hlk] using And.intro hInv hB
    | some di =>
      by_cases hle : di.files.length ≤ di.index
      · simpa [step, doReadDir, hlk, hle] using And.intro hInv hB
      · have hkeys : ∀ (v : DirInfo),
            sessionKeys { st with openDirs := setKey st.openDirs h v }
              = sessionKeys st := by
          intro v
          simp [sessionKeys, keys_setKey]
        have hcnt : ∀ (v : DirInfo),
            ({ st with openDirs := setKey st.openDirs h v } : SessionState).handleCount
              = st.handleCount := fun v => rfl
        by_cases hst : fs.statOk (joinPath di.dirPath (di.files.getD di.index [])) = true
        · constructor
          · show SessionInv (step rootDir fs st (.readDir h)).2
            unfold SessionInv
            simp only [step, doReadDir, hlk, hle, if_false, List.getD] at hst ⊢
            simp only [hst, if_true, if_pos]
            simpa [hkeys] using hInv
          · show KeysBound (step rootDir fs st (.readDir h)).2
            unfold KeysBound
            simp only [step, doReadDir, hlk, hle, if_false, List.getD] at hst ⊢
            simp only [hst, if_true, if_pos]
            intro k hk
            rw [hkeys] at hk
            simpa [hcnt] using hB k hk
        · constructor
          · show SessionInv (step rootDir fs st (.readDir h)).2
            unfold SessionInv
            simp only [step, doReadDir, hlk, hle, if_false, List.getD] at hst ⊢
            simp only [hst]
            simpa [hkeys, hst] using hInv
          · show KeysBound (step rootDir fs st (.readDir h)).2
            unfold KeysBound
            simp only [step, doReadDir, hlk, hle, if_false, List.getD] at hst ⊢
            simp only [hst]
            intro k hk
            simp only [Bool.false_eq_true, if_false] at hk ⊢
            rw [hkeys] at hk
            simpa [hcnt] using hB k hk
  | close h b =>
    by_cases hf : (st.openFiles.lookup h).isSome = true
    · have h2 : (step rootDir fs st (.close h b)).2
          = { st with openFiles := eraseKey st.openFiles h } :=
        close_file_state st h b hf
      rw [h2]
      have hsub : (sessionKeys { st with openFiles := eraseKey st.openFiles h }).Sublist
          (sessionKeys st) := by
        unfold sessionKeys
        simp only [keys_eraseKey]
        exact List.Sublist.append_right (List.filter_sublist _) _
      constructor
      · exact List.Nodup.sublist hsub hInv
      · intro k hk
        exact hB k (hsub.mem hk)
    · by_cases hd : (st.openDirs.lookup h).isSome = true
      · have hfn : st.openFiles.lookup h = none := by
          cases ho : st.openFiles.lookup h with
          | none => rfl
          | some v => rw [ho] at hf; simp at hf
        have h2 : (step rootDir fs st (.close h b)).2
            = { st with openDirs := eraseKey st.openDirs h } :=
          close_dir_state st h b hfn hd
        rw [h2]
        have hsub : (sessionKeys { st with openDirs := eraseKey st.openDirs h }).Sublist
            (sessionKeys st) := by
          unfold sessionKeys
          simp only [keys_eraseKey]
          exact (List.filter_sublist _).append_left _
        constructor
        · exact List.Nodup.sublist hsub hInv
        · intro k hk
          exact hB k (hsub.mem hk)
      · simpa [step, doClose, hf, hd] using And.intro hInv hB

/-- Every state reachable from a fresh session satisfies the handle-table
invariant assumed by the close-invalidation theorems. -/
theorem inv_run (rootDir : FilePath) :
    ∀ (trace : List (FS × Cmd)) (st : SessionState),
      SessionInv st → KeysBound st →
      SessionInv (run rootDir st trace).2 ∧ KeysBound (run rootDir st trace).2 := by
  intro trace
  induction trace with
  | nil =>
    intro st hInv hB
    exact ⟨hInv, hB⟩
  | cons fc rest ih =>
    intro st hInv hB
    obtain ⟨fs, c⟩ := fc
    have hstep := inv_step rootDir fs st c hInv hB
    have := ih (step rootDir fs st c).2 hstep.1 hstep.2
    simpa [run] using this
